import Mathlib

/-!
Verification development for the NSLS-II TES beamline profile collection.

The Python sources are shallowly embedded:
* Python dicts are association lists (`List (String × α)`) with
  insertion-order preserving update semantics (`dictSet`, `dictOfPairs`).
* Fallible Python code (KeyError, TypeError, AttributeError, assertion
  failures, raised exceptions) is embedded with `Except` / `Option`.
* numpy floating point arithmetic is embedded over `ℚ` where the code is
  rational arithmetic, and over `ℝ` where it is trigonometric
  (`np.sin`, `np.arcsin`, ...); `np.arcsin` applied outside `[-1, 1]`
  yields NaN, embedded as `Option.none`.
-/

/-! ## Python dict semantics over association lists -/

/-- Lookup in a dict modelled as an association list: the value of the
first entry whose key matches. -/
def dictGet {α : Type} : List (String × α) → String → Option α
  | [], _ => none
  | p :: t, k => if p.1 = k then some p.2 else dictGet t k

/-- Python `d[k] = v`: overwrite in place if the key exists (keeping its
insertion position), otherwise append a new entry. -/
def dictSet {α : Type} : List (String × α) → String → α → List (String × α)
  | [], k, v => [(k, v)]
  | p :: t, k, v => if p.1 = k then (k, v) :: t else p :: dictSet t k v

/-- A Python dict literal: sequential insertion of the written pairs,
so a repeated key keeps its first position but its last value. -/
def dictOfPairs {α : Type} (ps : List (String × α)) : List (String × α) :=
  ps.foldl (fun d p => dictSet d p.1 p.2) []

/-- Python `k in d`. -/
def dictHasKey {α : Type} (d : List (String × α)) (k : String) : Bool :=
  d.any (fun p => p.1 = k)

/-- Python `str.lower()` on the ASCII tags used by the ROI table:
lower-case every character. -/
def pyLower (s : String) : String :=
  ⟨s.data.map Char.toLower⟩

/-! ## ROI lookup table (`startup/10-rois.py`)

`element_to_roi` is the Python dict literal with its duplicated `"pd"` key
(first `(274, 292)`, later `(275, 295)`; the later binding wins).
`rois` lower-cases its argument and indexes the dict; an absent key is a
`KeyError`, embedded as `none`. -/

def element_to_roi : List (String × (ℕ × ℕ)) :=
  dictOfPairs
    [("s", (224, 240)),
     ("p", (192, 210)),
     ("pd", (274, 292)),
     ("au", (202, 220)),
     ("cl", (253, 271)),
     ("ru_croft", (240, 280)),
     ("y_croft", (170, 205)),
     ("zr_croft", (190, 225)),
     ("zr_sahiner", (195, 225)),
     ("pd", (275, 295))]

def rois (element : String) : Option (ℕ × ℕ) :=
  dictGet element_to_roi (pyLower element)

/-! ## Motor limit validation (`startup/30-fly_scans.py`, `_validate_motor_limits`)

The Python function first asserts `start < stop` (an `AssertionError`,
the "assertion-style InvalidInput" of the spec), then raises `LimitError`
if either value fails the strict test `limits[0] < v < limits[1]`.
`motor.limits` is embedded as the pair `(low, high)`; the raised errors
carry the bounds and requested values that appear in the Python messages. -/

inductive MotorValidationError : Type where
  | invalidInput (start stop : ℚ) (k : String)
  | limitExceeded (low high start stop : ℚ) (k : String)
  deriving DecidableEq, Repr

def _validate_motor_limits (low high start stop : ℚ) (k : String) :
    Except MotorValidationError Unit :=
  if start < stop then
    if ¬ (low < start ∧ start < high) ∨ ¬ (low < stop ∧ stop < high) then
      .error (.limitExceeded low high start stop k)
    else
      .ok ()
  else
    .error (.invalidInput start stop k)

/-! ## xy_fly step quantization (`startup/30-fly_scans.py`, lines 109-115)

`prescale = int(np.floor(xstep_size / (5 * xmres)))`,
`a_xstep_size = prescale * (5 * xmres)`,
`num_xpixels = int(np.floor((xstop - xstart) / a_xstep_size))`.
All quantities involved are nonnegative in use, so `int(np.floor(x))`
is the mathematical floor. -/

def xy_prescale (xstep_size xmres : ℚ) : ℤ :=
  ⌊xstep_size / (5 * xmres)⌋

def xy_a_xstep_size (xstep_size xmres : ℚ) : ℚ :=
  (xy_prescale xstep_size xmres : ℚ) * (5 * xmres)

def xy_num_xpixels (xstart xstop xstep_size xmres : ℚ) : ℤ :=
  ⌊(xstop - xstart) / xy_a_xstep_size xstep_size xmres⌋

/-! ## XANES_mapping energy list (`startup/30-fly_scans.py`, lines 564-570)

`np.linspace(a, b, n)` over exact rationals; `np.int(x)` on the
nonnegative section length ratio is the floor.  Each loop iteration drops
the last accumulated point (`ept = ept[0:-1]`) and then appends the new
section (`np.append` concatenates).  Indexing `E_sections[ii+1]` can fail
(IndexError) when the boundary list is too short, embedded via `Option`. -/

def linspace (a b : ℚ) (n : ℕ) : List ℚ :=
  if n = 0 then []
  else if n = 1 then [a]
  else (List.range n).map (fun i => a + i * (b - a) / ((n : ℚ) - 1))

def XANES_ept (E_sections : List ℚ) (step_size : List ℚ) : Option (List ℚ) :=
  (List.range step_size.length).foldlM
    (fun ept ii => do
      let e1 ← E_sections.get? ii
      let e2 ← E_sections.get? (ii + 1)
      let st ← step_size.get? ii
      let n : ℕ := (⌊(e2 - e1) / st⌋ + 1).toNat
      pure (ept.dropLast ++ linspace e1 e2 n))
    []

/-! ## E_fly energy/linear conversions (`startup/30-fly_scans.py`,
lines 313-325)

The closures `_linear_to_energy` and `_energy_to_linear` are embedded as
functions of the captured `e_back` and `energy_cal` values.  numpy trig
over ℝ; `np.arcsin` outside `[-1, 1]` returns NaN, which poisons the
whole result: the NaN case is embedded as `Option.none` in
`_energy_to_linear`, and the round trip pipes it through `Option.map`. -/

noncomputable def deg2rad (d : ℝ) : ℝ := d * Real.pi / 180

noncomputable def _linear_to_energy (e_back energy_cal linear : ℝ) : ℝ :=
  e_back / Real.sin (deg2rad 45 +
    0.5 * Real.arctan ((28.2474 - linear) / 35.02333) + deg2rad energy_cal / 2)

noncomputable def _energy_to_linear (e_back energy_cal energy : ℝ) :
    Option ℝ :=
  if |e_back / energy| ≤ 1 then
    some (28.2474 + 35.02333 * Real.tan
      (Real.pi / 2 - 2 * Real.arcsin (e_back / energy) + deg2rad energy_cal))
  else
    none

/-- The round trip of the C1 claim: energy to linear drive position and
back to energy. -/
noncomputable def E_fly_roundtrip (e_back energy_cal E : ℝ) : Option ℝ :=
  (_energy_to_linear e_back energy_cal E).map
    (_linear_to_energy e_back energy_cal)

/-! ## HDF5 plugin warmup (`startup/26-areadetectors.py`,
`HDF5PluginWithFileStoreProsilica.warmup`)

The procedure first sets the plugin enable endpoint to 1, then snapshots
the current values of six driver (cam) endpoints, drives them one at a
time to the fixed warm-up configuration, waits for the acquisition, and
finally restores the snapshotted values by iterating
`reversed(list(original_vals.items()))`.  The embedding threads an
explicit endpoint-state function together with the ordered trace of all
`sig.set(val)` writes issued.  Sleeps are real time and not modelled. -/

inductive CamSig : Type where
  | hdf5Enable
  | arrayCallbacks
  | imageMode
  | triggerMode
  | acquireTime
  | acquirePeriod
  | acquire
  deriving DecidableEq, Repr

inductive SigVal : Type where
  | num (n : ℤ)
  | str (s : String)
  deriving DecidableEq, Repr

/-- The warm-up configuration written to the driver, in the order of the
`sigs` OrderedDict in the source. -/
def warmupSigs : List (CamSig × SigVal) :=
  [(.arrayCallbacks, .num 1),
   (.imageMode, .str "Single"),
   (.triggerMode, .str "Fixed Rate"),
   (.acquireTime, .num 1),
   (.acquirePeriod, .num 1),
   (.acquire, .num 1)]

/-- One `sig.set(val).wait()`: update the endpoint state and append the
write to the trace. -/
def doSet (st : (CamSig → SigVal) × List (CamSig × SigVal))
    (sig : CamSig) (v : SigVal) :
    (CamSig → SigVal) × List (CamSig × SigVal) :=
  (fun x => if x = sig then v else st.1 x, st.2 ++ [(sig, v)])

/-- The warmup procedure: enable the plugin, snapshot `original_vals`,
apply the warm-up configuration in order, then restore the snapshot in
reversed order.  Returns the final endpoint state and the ordered write
trace. -/
def warmup (s0 : CamSig → SigVal) :
    (CamSig → SigVal) × List (CamSig × SigVal) :=
  let st0 := doSet (s0, []) .hdf5Enable (.num 1)
  let originalVals := warmupSigs.map (fun p => (p.1, st0.1 p.1))
  let st1 := warmupSigs.foldl (fun st p => doSet st p.1 p.2) st0
  let st2 := (originalVals.reverse).foldl (fun st p => doSet st p.1 p.2) st1
  st2

/-! ## XDI document exporter (`startup/28-suitcase-xdi.py`, `Serializer`)

The Serializer is embedded as a state record (`SState`) threaded through
per-document transition functions.  External library behaviour at the
boundary is passed in through `SerializerCfg`:
`fmt` is Python `str.format(**doc)` applied to a template string,
`isoTime` is `datetime.datetime.fromtimestamp(t).isoformat()`,
`numStr` is Python `str()` of a data value, and `nowStr` the wall-clock
`HH:MM:SS` string used in the output filename.  Raised Python exceptions
(KeyError, TypeError, AttributeError, IndexError and the
internal-inconsistency `Exception` of `event_page`) are `Except` errors. -/

abbrev HeaderBuf := List (String × Option String)

inductive SerErr : Type where
  | keyError
  | typeError
  | attributeError
  | indexError
  | internalInconsistency (n : ℕ)
  deriving DecidableEq, Repr

/-- One element of a per-event data list: a numpy array / Sequence is
stored as-is by `_update_data_columns_from_doc`, a scalar is wrapped. -/
inductive EventValue : Type where
  | scalar (v : ℚ)
  | arr (vs : List ℚ)
  deriving DecidableEq, Repr

/-- The fields of a document that the Serializer reads directly. Free-form
metadata fields only ever reach `str.format`, which is the `fmt` function
of the configuration, so they are not listed separately. -/
structure Doc where
  uid : String := ""
  name : String := ""
  descriptor : String := ""
  seq_num : List ℕ := []
  time : ℚ := 0
  data : List (String × List EventValue) := []
  deriving DecidableEq, Repr

/-- One entry of the `columns` template section. -/
structure XdiColumn where
  data_key : String
  column_label : String
  units : Option String := none
  transform : Option String := none

/-- One entry of the `required_headers` template section. -/
structure RequiredHeaderTmpl where
  data : String
  doc_name : Option String := none

/-- One entry of the `optional_headers` template section. -/
structure OptionalHeaderTmpl where
  data : String

/-- The parsed `xdi_file_template` TOML configuration. -/
structure XdiTemplate where
  versions : List (String × String)
  columns : List (String × XdiColumn)
  required_headers : List (String × RequiredHeaderTmpl)
  optional_headers : List (String × OptionalHeaderTmpl)

/-- Serializer construction arguments plus the external library functions
used at the boundary. `filePre` is the `file_prefix` argument. -/
structure SerializerCfg where
  template : XdiTemplate
  transforms : List (String × (Doc → List ℚ))
  filePre : String
  fmt : Doc → String → String
  isoTime : ℚ → String
  numStr : ℚ → String
  nowStr : String

/-- The mutable attributes of a `Serializer` instance.
`event_page_header_line_buffer` is not initialized by `__init__` (it is
first assigned in `_event_page_begin_row`), hence the `Option`. -/
structure SState where
  header_line_buffer : HeaderBuf := []
  event_page_header_line_buffer : Option HeaderBuf := none
  row_end_docs : List Doc := []
  scan_number : Option (List ℕ) := none
  column_data : List (String × Option (List ℚ)) := []
  uid_to_descriptor : List (String × Doc) := []
  templatedFilePre : Option String := none

def initSState : SState := {}

/-- `self.columns`: the values of the `columns` template section in
declaration order. -/
def columnsOf (cfg : SerializerCfg) : List XdiColumn :=
  cfg.template.columns.map (fun p => p.2)

/-- `_initialize_column_data_dict`: set every configured data_key to None. -/
def initColumnData (cfg : SerializerCfg)
    (cd : List (String × Option (List ℚ))) :
    List (String × Option (List ℚ)) :=
  cfg.template.columns.foldl (fun d p => dictSet d p.2.data_key none) cd

/-- The initialization step of `_get_empty_header_lines`: a header label
not yet present in the buffer is inserted unresolved. -/
def ensureKey (buf : HeaderBuf) (label : String) : HeaderBuf :=
  if dictHasKey buf label then buf else buf ++ [(label, none)]

/-- One template-section pass of `_update_header_lines_from_doc`: for each
label of the section, insert it unresolved if absent, and if it is still
unresolved generate its header line (`render` returns `none` exactly when
the source loop body does not assign, i.e. for a `required_headers` entry
whose doc_name constraint is unsatisfied). -/
def sectionPass {β : Type} (buf : HeaderBuf) (entries : List (String × β))
    (render : String → β → Option String) : HeaderBuf :=
  entries.foldl
    (fun b p =>
      let b1 := ensureKey b p.1
      if dictGet b1 p.1 = some none then
        match render p.1 p.2 with
        | some line => dictSet b1 p.1 (some line)
        | none => b1
      else b1)
    buf

/-- `_update_header_lines_from_doc`: the four section passes in source
order (versions, columns, required_headers, optional_headers). -/
def updateHeaderLinesFromDoc (cfg : SerializerCfg) (docName : String)
    (doc : Doc) (buf : HeaderBuf) : HeaderBuf :=
  let b1 := sectionPass buf cfg.template.versions (fun _ v => some v)
  let b2 := sectionPass b1 cfg.template.columns
    (fun label c =>
      let hv := cfg.fmt doc c.column_label
      match c.units with
      | some u => some ("# " ++ label ++ " = " ++ hv ++ " " ++ u)
      | none => some ("# " ++ label ++ " = " ++ hv))
  let b3 := sectionPass b2 cfg.template.required_headers
    (fun label rh =>
      match rh.doc_name with
      | none => some ("# " ++ label ++ " = " ++ cfg.fmt doc rh.data)
      | some c =>
        if docName = c then
          some ("# " ++ label ++ " = " ++ cfg.fmt doc rh.data)
        else
          none)
  sectionPass b3 cfg.template.optional_headers
    (fun label oh => some (label ++ " = " ++ cfg.fmt doc oh.data))

/-- `Serializer.start`. -/
def startDoc (cfg : SerializerCfg) (s : SState) (doc : Doc) : SState :=
  { s with
    column_data := initColumnData cfg s.column_data,
    header_line_buffer :=
      updateHeaderLinesFromDoc cfg "start" doc s.header_line_buffer,
    templatedFilePre := some (cfg.fmt doc cfg.filePre) }

/-- `Serializer.descriptor`. -/
def descriptorDoc (cfg : SerializerCfg) (s : SState) (doc : Doc) : SState :=
  { s with
    uid_to_descriptor := dictSet s.uid_to_descriptor doc.uid doc,
    header_line_buffer :=
      updateHeaderLinesFromDoc cfg "descriptor" doc s.header_line_buffer }

/-- `_update_data_columns_from_doc`: for each configured column whose
data_key occurs in the page data, store the transform result if a
transform is named (a missing transform is a KeyError), else the first
event value, a scalar being wrapped in a one-element tuple; indexing an
empty per-key list is an IndexError. -/
def updateDataColumnsFromDoc (cfg : SerializerCfg)
    (cd : List (String × Option (List ℚ))) (doc : Doc) :
    Except SerErr (List (String × Option (List ℚ))) :=
  (columnsOf cfg).foldlM
    (fun d col =>
      match dictGet doc.data col.data_key with
      | none => pure d
      | some evs =>
        match col.transform with
        | some tkey =>
          match dictGet cfg.transforms tkey with
          | none => throw SerErr.keyError
          | some f => pure (dictSet d col.data_key (some (f doc)))
        | none =>
          match evs with
          | [] => throw SerErr.indexError
          | EventValue.scalar v :: _ => pure (dictSet d col.data_key (some [v]))
          | EventValue.arr vs :: _ => pure (dictSet d col.data_key (some vs)))
    cd

/-- `_event_page_begin_row`: the event-page header buffer becomes the
unresolved entries of the main buffer, plus (if the template asks for it)
the provisional Scan.start_time entry. -/
def eventPageBeginRow (cfg : SerializerCfg) (s : SState) (doc : Doc) :
    SState :=
  let b := s.header_line_buffer.filter (fun p => p.2 = none)
  let b1 :=
    if dictHasKey cfg.template.optional_headers "Scan.start_time" then
      dictSet b "Scan.start_time" (some (cfg.isoTime doc.time))
    else
      b
  { s with event_page_header_line_buffer := some b1 }

/-- `_event_page_end_row`: when the template declares the optional header
"Scan.end_time", the end time is stored in the event-page header buffer —
under the key "Scan_time.end" exactly as written in the source.  If that
buffer attribute was never assigned this is an AttributeError. -/
def eventPageEndRow (cfg : SerializerCfg) (s : SState) (doc : Doc) :
    Except SerErr SState :=
  if dictHasKey cfg.template.optional_headers "Scan.end_time" then
    match s.event_page_header_line_buffer with
    | none => throw SerErr.attributeError
    | some b =>
      let b2 := dictSet b "Scan_time.end" (some (cfg.isoTime doc.time))
      pure { s with event_page_header_line_buffer := some b2 }
  else
    pure s

/-- The combine loop of `_event_page_primary`: entries of the event-page
buffer fill still-unresolved entries of a copy of the main buffer; a key
absent from the main buffer is a KeyError. -/
def combineHeaderBuffers (hlb : HeaderBuf) (eb : HeaderBuf) :
    Except SerErr HeaderBuf :=
  eb.foldlM
    (fun c p =>
      match dictGet c p.1 with
      | none => throw SerErr.keyError
      | some none => pure (dictSet c p.1 p.2)
      | some (some _) => pure c)
    hlb

/-- `_write_header` writes every buffered header value; writing a value
that is still `None` is a TypeError. -/
def renderHeaderLines (combined : HeaderBuf) : Except SerErr (List String) :=
  combined.mapM
    (fun p =>
      match p.2 with
      | none => throw SerErr.typeError
      | some line => pure line)

/-- `zip_longest(*self._column_data.values(), fillvalue="NA")`: iterating
a column value that is still `None` is a TypeError. -/
def colValsOf (cd : List (String × Option (List ℚ))) :
    Except SerErr (List (List ℚ)) :=
  cd.mapM
    (fun p =>
      match p.2 with
      | none => throw SerErr.typeError
      | some vs => pure vs)

def tabJoin (cells : List String) : String :=
  String.intercalate "\t" cells

/-- `itertools.zip_longest` with fillvalue "NA": transpose the column
lists, padding every column to the longest length. -/
def zipLongestNA (cols : List (List String)) : List (List String) :=
  let n := cols.foldl (fun m c => max m c.length) 0
  (List.range n).map (fun i => cols.map (fun c => c.getD i "NA"))

/-- The file written by one `_event_page_primary` call, split into its
parts: header lines, the "#----" separator is implicit between
`headerLines` and `columnLabelLine`, then the tab-joined data rows. -/
structure OutFile where
  filename : String
  headerLines : List String
  columnLabelLine : String
  dataRows : List String
  deriving DecidableEq, Repr

/-- The file-writing part of `_event_page_primary`, as a function of the
relevant serializer attributes: build the filename from the templated
prefix (concatenating a missing prefix is a TypeError; `str(None[0])` a
TypeError; indexing an empty seq_num an IndexError), combine the header
buffers, render the header lines, and render the padded data rows. -/
def renderPrimaryFile (cfg : SerializerCfg) (hlb : HeaderBuf)
    (ephlb : Option HeaderBuf) (pfxO : Option String) (snO : Option (List ℕ))
    (cd : List (String × Option (List ℚ))) : Except SerErr OutFile :=
  match pfxO with
  | none => .error SerErr.typeError
  | some pfx =>
    match snO with
    | none => .error SerErr.typeError
    | some [] => .error SerErr.indexError
    | some (sn :: _) =>
      match ephlb with
      | none => .error SerErr.attributeError
      | some eb =>
        match combineHeaderBuffers hlb eb with
        | .error e => .error e
        | .ok combined =>
          match renderHeaderLines combined with
          | .error e => .error e
          | .ok headerLines =>
            match colValsOf cd with
            | .error e => .error e
            | .ok colVals =>
              .ok { filename :=
                      pfx ++ toString sn ++ "-" ++ cfg.nowStr ++ ".xdi",
                    headerLines := headerLines,
                    columnLabelLine :=
                      "# " ++ tabJoin
                        ((columnsOf cfg).map (fun c => c.column_label)),
                    dataRows :=
                      (zipLongestNA
                        (colVals.map (fun c => c.map cfg.numStr))).map
                        tabJoin }

/-- `_event_page_primary`: update the column-data buffer, then render and
write one file from the updated serializer attributes. -/
def eventPagePrimary (cfg : SerializerCfg) (s : SState) (doc : Doc) :
    Except SerErr (SState × OutFile) :=
  match updateDataColumnsFromDoc cfg s.column_data doc with
  | .error e => .error e
  | .ok cd =>
    match renderPrimaryFile cfg s.header_line_buffer
        s.event_page_header_line_buffer s.templatedFilePre s.scan_number
        cd with
    | .error e => .error e
    | .ok file => .ok ({ s with column_data := cd }, file)

/-- `Serializer.event_page`: resolve the stream name through the stored
descriptor (a missing descriptor uid is a KeyError) and dispatch. -/
def eventPageDoc (cfg : SerializerCfg) (s : SState) (doc : Doc) :
    Except SerErr (SState × Option OutFile) :=
  match dictGet s.uid_to_descriptor doc.descriptor with
  | none => .error SerErr.keyError
  | some desc =>
    if desc.name = "row_ends" then
      match s.row_end_docs with
      | [] =>
        .ok (eventPageBeginRow cfg
          { s with row_end_docs := s.row_end_docs ++ [doc] } doc, none)
      | [_] =>
        match eventPageEndRow cfg s doc with
        | .error e => .error e
        | .ok s1 => .ok ({ s1 with row_end_docs := [] }, none)
      | _ => .error (SerErr.internalInconsistency s.row_end_docs.length)
    else if desc.name = "energy_bins" then
      match updateDataColumnsFromDoc cfg s.column_data doc with
      | .error e => .error e
      | .ok cd => .ok ({ s with column_data := cd }, none)
    else if desc.name = "primary" then
      match eventPagePrimary cfg
          { s with scan_number := some doc.seq_num } doc with
      | .error e => .error e
      | .ok (s2, f) => .ok (s2, some f)
    else
      .ok (s, none)

inductive DocKind : Type where
  | start
  | descriptor
  | event_page
  | stop
  deriving DecidableEq, Repr

/-- `Serializer.__call__` via `event_model.DocumentRouter`: dispatch a
named document to the corresponding method (`stop` does nothing). -/
def processDoc (cfg : SerializerCfg) (s : SState) :
    DocKind × Doc → Except SerErr (SState × Option OutFile)
  | (DocKind.start, doc) => .ok (startDoc cfg s doc, none)
  | (DocKind.descriptor, doc) => .ok (descriptorDoc cfg s doc, none)
  | (DocKind.event_page, doc) => eventPageDoc cfg s doc
  | (DocKind.stop, _) => .ok (s, none)

/-- `export`: feed every (name, document) pair in stream order,
collecting the files written along the way. -/
def processDocs (cfg : SerializerCfg) (s : SState)
    (docs : List (DocKind × Doc)) : Except SerErr (SState × List OutFile) :=
  docs.foldlM
    (fun acc nd => do
      let r ← processDoc cfg acc.1 nd
      pure (r.1, acc.2 ++ r.2.toList))
    (s, [])


/-! ## Concrete serializer configurations and document streams

Used by the claim witnesses and the concrete end-to-end theorems. -/

/-- A three-column template (data keys E, I0, If), versions section only. -/
def cfg4 : SerializerCfg :=
  { template :=
      { versions := [("XDI", "# XDI/1.0 Bluesky")],
        columns :=
          [("energy", { data_key := "E", column_label := "energy" }),
           ("i0", { data_key := "I0", column_label := "i0" }),
           ("ifl", { data_key := "If", column_label := "ifl" })],
        required_headers := [],
        optional_headers := [] },
    transforms := [],
    filePre := "scan-",
    fmt := fun _ t => t,
    isoTime := fun t => "t" ++ toString t,
    numStr := fun q => toString q,
    nowStr := "12:00:00" }

def xdiDocStart : Doc := { uid := "run-1" }
def xdiDocStart2 : Doc := { uid := "run-2" }
def xdiDescRowEnds : Doc := { uid := "d-rows", name := "row_ends" }
def xdiDescPrimary : Doc := { uid := "d-prim", name := "primary" }
def xdiPageRow1 : Doc := { descriptor := "d-rows", time := 100 }
def xdiPageRow2 : Doc := { descriptor := "d-rows", time := 200 }

/-- A primary event-page carrying a 5-element array for E, a 5-element
array for I0 and only a 3-element array for If. -/
def xdiPagePrimary : Doc :=
  { descriptor := "d-prim", seq_num := [1],
    data :=
      [("E", [EventValue.arr [1, 2, 3, 4, 5]]),
       ("I0", [EventValue.arr [10, 20, 30, 40, 50]]),
       ("If", [EventValue.arr [100, 200, 300]])] }

/-- start, two descriptors, a complete row_ends pair, one primary page,
stop: the shape of a one-row xy_fly document stream. -/
def xdiDocs4 : List (DocKind × Doc) :=
  [(DocKind.start, xdiDocStart),
   (DocKind.descriptor, xdiDescRowEnds),
   (DocKind.descriptor, xdiDescPrimary),
   (DocKind.event_page, xdiPageRow1),
   (DocKind.event_page, xdiPageRow2),
   (DocKind.event_page, xdiPagePrimary),
   (DocKind.stop, {})]

/-- cfg4 with the template optional_headers section declaring
Scan.start_time and Scan.end_time. -/
def cfg8 : SerializerCfg :=
  { cfg4 with
    template :=
      { cfg4.template with
        optional_headers :=
          [("Scan.start_time", { data := "start-time-tmpl" }),
           ("Scan.end_time", { data := "end-time-tmpl" })] } }

def xdiDocs8first5 : List (DocKind × Doc) :=
  [(DocKind.start, xdiDocStart),
   (DocKind.descriptor, xdiDescRowEnds),
   (DocKind.descriptor, xdiDescPrimary),
   (DocKind.event_page, xdiPageRow1),
   (DocKind.event_page, xdiPageRow2)]

def xdiDocs8 : List (DocKind × Doc) :=
  xdiDocs8first5 ++ [(DocKind.event_page, xdiPagePrimary)]

/-- The serializer state after start and both descriptors of `xdiDocs4`. -/
def sPre4 : SState :=
  descriptorDoc cfg4
    (descriptorDoc cfg4 (startDoc cfg4 initSState xdiDocStart) xdiDescRowEnds)
    xdiDescPrimary

/-- cfg4 with a format function that depends on the document, so that a
second run-start with different field values would render different
header lines if it were allowed to overwrite. -/
def cfg3w : SerializerCfg :=
  { cfg4 with fmt := fun d t => t ++ ":" ++ d.uid }

/-! ## Lemmas -/

theorem dictGet_dictSet_self {α : Type} (d : List (String × α)) (k : String)
    (v : α) : dictGet (dictSet d k v) k = some v := by
  induction d with
  | nil => simp [dictSet, dictGet]
  | cons p t ih =>
    by_cases hp : p.1 = k
    · simp [dictSet, dictGet, hp]
    · simp [dictSet, dictGet, hp, ih]

theorem dictGet_dictSet_ne {α : Type} (d : List (String × α)) (k k' : String)
    (v : α) (hne : k ≠ k') : dictGet (dictSet d k' v) k = dictGet d k := by
  induction d with
  | nil =>
    have : ¬ (k' = k) := fun h => hne h.symm
    simp [dictSet, dictGet, this]
  | cons p t ih =>
    have hset : dictSet (p :: t) k' v =
        if p.1 = k' then (k', v) :: t else p :: dictSet t k' v := rfl
    by_cases hp : p.1 = k'
    · have hpk : ¬ (p.1 = k) := by rw [hp]; exact fun h => hne h.symm
      have hk'k : ¬ (k' = k) := fun h => hne h.symm
      rw [hset, if_pos hp]
      simp [dictGet, hpk, hk'k]
    · rw [hset, if_neg hp]
      by_cases hk : p.1 = k
      · simp [dictGet, hk]
      · simp [dictGet, hk, ih]

theorem dictGet_append_left {α : Type} {d : List (String × α)} {k : String}
    {v : α} (c : List (String × α)) (h : dictGet d k = some v) :
    dictGet (d ++ c) k = some v := by
  induction d with
  | nil => simp [dictGet] at h
  | cons p t ih =>
    by_cases hp : p.1 = k
    · simp [dictGet, hp] at h ⊢; exact h
    · simp [dictGet, hp] at h ⊢; exact ih h

/-- Every value reachable by `dictGet` is a value stored in the list. -/
theorem dictGet_mem_values {α : Type} {d : List (String × α)} {k : String}
    {v : α} (h : dictGet d k = some v) : v ∈ d.map (fun p => p.2) := by
  induction d with
  | nil => simp [dictGet] at h
  | cons p t ih =>
    by_cases hp : p.1 = k
    · simp [dictGet, hp] at h
      simp [h]
    · simp [dictGet, hp] at h
      simp [ih h]

/-! ## Claim theorems -/

/-- C7: the ROI lookup `rois` lower-cases its input tag before lookup; every
tag present in the table yields an integer pair with low < high; for "pd"
(in any letter case) the overriding second definition (275, 295) is
returned rather than the first (274, 292); an absent tag fails with
NotFound (KeyError), embedded as `none`, not a default value. -/
theorem claim_C7_roi_lookup :
    (∀ tag r, rois tag = some r → r.1 < r.2) ∧
    rois "Pd" = some (275, 295) ∧
    rois "pd" = some (275, 295) ∧
    rois "kr" = none := by
  refine ⟨?_, by decide, by decide, by decide⟩
  intro tag r h
  have htab : element_to_roi =
      [("s", (224, 240)), ("p", (192, 210)), ("pd", (275, 295)),
       ("au", (202, 220)), ("cl", (253, 271)), ("ru_croft", (240, 280)),
       ("y_croft", (170, 205)), ("zr_croft", (190, 225)),
       ("zr_sahiner", (195, 225))] := by decide
  unfold rois at h
  rw [htab] at h
  have hmem := dictGet_mem_values h
  simp only [List.map_cons, List.map_nil, List.mem_cons, List.not_mem_nil,
    or_false] at hmem
  rcases hmem with h1 | h1 | h1 | h1 | h1 | h1 | h1 | h1 | h1 <;>
    (subst h1; decide)

/-- C7 witness: the theorem applied at the concrete tag "S". -/
theorem claim_C7_roi_lookup_witness :
    (224 : ℕ) < 240 ∧ rois "S" = some (224, 240) :=
  ⟨claim_C7_roi_lookup.1 "S" (224, 240) (by decide), by decide⟩

/-- C5 counterexample: with soft limits [0, 100], start = 0 and stop = 50,
start < stop and neither value is outside the interval [0, 100], yet the
code raises LimitExceeded (the check `limits[0] < v < limits[1]` is
strict, so a value exactly on a soft limit is rejected), contradicting
the claim that the function returns silently in this case. -/
theorem claim_C5_counterexample :
    ¬ ((0 : ℚ) ≥ 50) ∧
    ¬ ((0 : ℚ) < 0 ∨ (0 : ℚ) > 100) ∧
    ¬ ((50 : ℚ) < 0 ∨ (50 : ℚ) > 100) ∧
    _validate_motor_limits 0 100 0 50 "x" =
      .error (.limitExceeded 0 100 0 50 "x") := by
  refine ⟨by norm_num, by norm_num, by norm_num, ?_⟩
  unfold _validate_motor_limits
  rw [if_pos (by norm_num : (0 : ℚ) < 50), if_pos]
  left
  intro hc
  exact absurd hc.1 (by norm_num)

/-- C5 (amended): `_validate_motor_limits` fails with an assertion-style
InvalidInput error when start ≥ stop; fails with a LimitExceeded error
carrying the bounds and the requested values when start or stop falls on
or outside the soft limits (the check is strict: a value equal to a limit
is rejected); and returns silently otherwise, i.e. when both values are
strictly inside the open interval (low, high). -/
theorem claim_C5_motor_limit_validation (low high start stop : ℚ) (k : String) :
    (stop ≤ start →
      _validate_motor_limits low high start stop k =
        .error (.invalidInput start stop k)) ∧
    (start < stop →
      (start ≤ low ∨ high ≤ start ∨ stop ≤ low ∨ high ≤ stop) →
      _validate_motor_limits low high start stop k =
        .error (.limitExceeded low high start stop k)) ∧
    (start < stop → low < start → start < high → low < stop → stop < high →
      _validate_motor_limits low high start stop k = .ok ()) := by
  refine ⟨?_, ?_, ?_⟩
  · intro h
    unfold _validate_motor_limits
    rw [if_neg (not_lt.mpr h)]
  · intro h1 h2
    have hcond : ¬ (low < start ∧ start < high) ∨ ¬ (low < stop ∧ stop < high) := by
      rcases h2 with h | h | h | h
      · exact Or.inl (fun hc => absurd hc.1 (not_lt.mpr h))
      · exact Or.inl (fun hc => absurd hc.2 (not_lt.mpr h))
      · exact Or.inr (fun hc => absurd hc.1 (not_lt.mpr h))
      · exact Or.inr (fun hc => absurd hc.2 (not_lt.mpr h))
    unfold _validate_motor_limits
    rw [if_pos h1, if_pos hcond]
  · intro h1 h2 h3 h4 h5
    unfold _validate_motor_limits
    rw [if_pos h1, if_neg]
    push_neg
    exact ⟨⟨h2, h3⟩, h4, h5⟩

/-- C5 witness: the amended theorem applied at bounds (0, 100) with the
spec example inputs: start=10, stop=5 gives InvalidInput; start=10,
stop=150 gives LimitExceeded; start=10, stop=50 succeeds silently. -/
theorem claim_C5_motor_limit_validation_witness :
    _validate_motor_limits 0 100 10 5 "x" = .error (.invalidInput 10 5 "x") ∧
    _validate_motor_limits 0 100 10 150 "x" =
      .error (.limitExceeded 0 100 10 150 "x") ∧
    _validate_motor_limits 0 100 10 50 "x" = .ok () :=
  ⟨(claim_C5_motor_limit_validation 0 100 10 5 "x").1 (by norm_num),
   (claim_C5_motor_limit_validation 0 100 10 150 "x").2.1 (by norm_num)
     (by norm_num),
   (claim_C5_motor_limit_validation 0 100 10 50 "x").2.2 (by norm_num)
     (by norm_num) (by norm_num) (by norm_num) (by norm_num)⟩

/-- C6: in xy_fly, for x motor resolution 0.0002 mm and requested step
0.01 mm, prescale = floor(0.01 / (5 * 0.0002)) = 10, the actual step is
prescale * 5 * 0.0002 = 0.01 mm exactly, and the pixel count over a 1 mm
range is floor(1 / 0.01) = 100. -/
theorem claim_C6_xy_quantization :
    xy_prescale 0.01 0.0002 = 10 ∧
    xy_a_xstep_size 0.01 0.0002 = 0.01 ∧
    xy_num_xpixels 0 1 0.01 0.0002 = 100 := by
  have h1 : xy_prescale 0.01 0.0002 = 10 := by
    unfold xy_prescale; norm_num
  have h2 : xy_a_xstep_size 0.01 0.0002 = 0.01 := by
    unfold xy_a_xstep_size; rw [h1]; norm_num
  refine ⟨h1, h2, ?_⟩
  unfold xy_num_xpixels
  rw [h2]
  norm_num

/-- C9: XANES_mapping builds a single concatenated energy list: for
boundaries [3550, 3600, 3620] and step sizes [10, 5] the list covers
3550 to 3600 at step 10 and 3600 to 3620 at step 5, the previous section
final point being discarded before each append, so 3600 appears exactly
once. -/
theorem claim_C9_xanes_energy_list :
    XANES_ept [3550, 3600, 3620] [10, 5] =
      some [3550, 3560, 3570, 3580, 3590, 3600, 3605, 3610, 3615, 3620] ∧
    ((XANES_ept [3550, 3600, 3620] [10, 5]).getD []).count 3600 = 1 := by
  have h1 : XANES_ept [3550, 3600, 3620] [10, 5] =
      some [3550, 3560, 3570, 3580, 3590, 3600, 3605, 3610, 3615, 3620] := by
    have ha : (⌊((3600 : ℚ) - 3550) / 10⌋ + 1).toNat = 6 := by
      norm_num
      decide
    have hb : (⌊((3620 : ℚ) - 3600) / 5⌋ + 1).toNat = 5 := by
      norm_num
      decide
    simp only [XANES_ept, List.length_cons, List.length_nil, List.range,
      List.range.loop, List.foldlM, List.get?, bind, Option.bind, ha, hb]
    norm_num [linspace, List.range, List.range.loop]
  refine ⟨h1, ?_⟩
  rw [h1]
  decide

/-- C10: after the warmup completes, each of the six snapshotted driver
endpoints again holds exactly the value it had before warmup began, and
the write trace is: the plugin enable write, then the six warm-up
configuration writes in declaration order, then the six restoring writes
of the snapshotted values in the reverse of the order in which the
warm-up configuration values were applied. -/
theorem claim_C10_warmup_restores (s0 : CamSig → SigVal) :
    ((warmup s0).1 .arrayCallbacks = s0 .arrayCallbacks ∧
     (warmup s0).1 .imageMode = s0 .imageMode ∧
     (warmup s0).1 .triggerMode = s0 .triggerMode ∧
     (warmup s0).1 .acquireTime = s0 .acquireTime ∧
     (warmup s0).1 .acquirePeriod = s0 .acquirePeriod ∧
     (warmup s0).1 .acquire = s0 .acquire) ∧
    (warmup s0).2 =
      (CamSig.hdf5Enable, SigVal.num 1) :: warmupSigs ++
        (warmupSigs.map (fun p => (p.1, s0 p.1))).reverse := by
  refine ⟨⟨?_, ?_, ?_, ?_, ?_, ?_⟩, ?_⟩ <;> rfl

/-! ## Serializer lemmas -/

theorem dictGet_ensureKey_preserves (buf : HeaderBuf) (l k : String)
    {v : Option String} (h : dictGet buf k = some v) :
    dictGet (ensureKey buf l) k = some v := by
  unfold ensureKey
  split
  · exact h
  · exact dictGet_append_left _ h

theorem sectionPass_preserves {β : Type} (entries : List (String × β))
    (render : String → β → Option String) (buf : HeaderBuf) (k : String)
    (line : String) (h : dictGet buf k = some (some line)) :
    dictGet (sectionPass buf entries render) k = some (some line) := by
  induction entries generalizing buf with
  | nil => exact h
  | cons e t ih =>
    have h1 : dictGet (ensureKey buf e.1) k = some (some line) :=
      dictGet_ensureKey_preserves buf e.1 k h
    have hstep :
        dictGet
          (if dictGet (ensureKey buf e.1) e.1 = some none then
            match render e.1 e.2 with
            | some line2 => dictSet (ensureKey buf e.1) e.1 (some line2)
            | none => ensureKey buf e.1
          else ensureKey buf e.1) k = some (some line) := by
      by_cases hc : dictGet (ensureKey buf e.1) e.1 = some none
      · have hne : k ≠ e.1 := by
          intro heq
          rw [heq] at h1
          rw [h1] at hc
          simp at hc
        rw [if_pos hc]
        cases render e.1 e.2 with
        | none => exact h1
        | some line2 => rw [dictGet_dictSet_ne _ _ _ _ hne]; exact h1
      · rw [if_neg hc]
        exact h1
    exact ih _ hstep

theorem updateHeaderLines_preserves (cfg : SerializerCfg) (docName : String)
    (doc : Doc) (buf : HeaderBuf) (k : String) (line : String)
    (h : dictGet buf k = some (some line)) :
    dictGet (updateHeaderLinesFromDoc cfg docName doc buf) k =
      some (some line) := by
  unfold updateHeaderLinesFromDoc
  exact sectionPass_preserves _ _ _ _ _
    (sectionPass_preserves _ _ _ _ _
      (sectionPass_preserves _ _ _ _ _
        (sectionPass_preserves _ _ _ _ _ h)))

theorem eventPageEndRow_hlb {cfg : SerializerCfg} {s : SState} {doc : Doc}
    {s1 : SState} (h : eventPageEndRow cfg s doc = .ok s1) :
    s1.header_line_buffer = s.header_line_buffer := by
  unfold eventPageEndRow at h
  split at h
  · cases hb : s.event_page_header_line_buffer with
    | none => rw [hb] at h; cases h
    | some b => rw [hb] at h; cases h; rfl
  · cases h; rfl

theorem eventPagePrimary_hlb {cfg : SerializerCfg} {s : SState} {doc : Doc}
    {s2 : SState} {f : OutFile}
    (h : eventPagePrimary cfg s doc = .ok (s2, f)) :
    s2.header_line_buffer = s.header_line_buffer := by
  unfold eventPagePrimary at h
  split at h
  · cases h
  · split at h
    · cases h
    · cases h; rfl

theorem eventPageDoc_hlb {cfg : SerializerCfg} {s : SState} {doc : Doc}
    {s' : SState} {f : Option OutFile}
    (h : eventPageDoc cfg s doc = .ok (s', f)) :
    s'.header_line_buffer = s.header_line_buffer := by
  unfold eventPageDoc at h
  split at h
  · cases h
  · split at h
    · split at h
      · cases h; rfl
      · cases hE : eventPageEndRow _ _ _ with
        | error e => rw [hE] at h; cases h
        | ok s1 =>
          rw [hE] at h
          cases h
          simpa using eventPageEndRow_hlb hE
      · cases h
    · split at h
      · split at h
        · cases h
        · cases h; rfl
      · split at h
        · split at h
          · cases h
          · rename_i heq
            cases h
            have hp := eventPagePrimary_hlb heq
            exact hp
        · cases h; rfl

/-- C2: for event-pages whose descriptor names the stream "row_ends":
with no open row the page begins a row (it is recorded in the
row-tracking list and the event-page header buffer is assigned); with one
recorded page the new page ends the row and clears the row-tracking
state; with two or more recorded pages — a further page before the row
closed — processing fails with the InternalInconsistency error carrying
the offending length. -/
theorem claim_C2_row_ends_state_machine (cfg : SerializerCfg) (s : SState)
    (doc desc : Doc)
    (hdesc : dictGet s.uid_to_descriptor doc.descriptor = some desc)
    (hname : desc.name = "row_ends") :
    (s.row_end_docs = [] →
      ∃ s1, eventPageDoc cfg s doc = .ok (s1, none) ∧
        s1.row_end_docs = [doc] ∧
        s1.event_page_header_line_buffer ≠ none) ∧
    (∀ d0 b, s.row_end_docs = [d0] →
      s.event_page_header_line_buffer = some b →
      ∃ s1, eventPageDoc cfg s doc = .ok (s1, none) ∧
        s1.row_end_docs = []) ∧
    (2 ≤ s.row_end_docs.length →
      eventPageDoc cfg s doc =
        .error (SerErr.internalInconsistency s.row_end_docs.length)) := by
  refine ⟨?_, ?_, ?_⟩
  · intro h
    refine ⟨eventPageBeginRow cfg { s with row_end_docs := [doc] } doc,
      ?_, ?_, ?_⟩
    · unfold eventPageDoc
      rw [hdesc]
      simp only [hname]
      rw [h]
      simp
    · rfl
    · unfold eventPageBeginRow
      split
      · simp
      · simp
  · intro d0 b h hb
    unfold eventPageDoc
    rw [hdesc]
    simp only [hname]
    rw [h]
    unfold eventPageEndRow
    by_cases hk : dictHasKey cfg.template.optional_headers "Scan.end_time"
    · rw [if_pos hk, hb]
      exact ⟨_, rfl, rfl⟩
    · rw [if_neg hk]
      exact ⟨_, rfl, rfl⟩
  · intro h2
    unfold eventPageDoc
    rw [hdesc]
    simp only [hname]
    rcases hrow : s.row_end_docs with _ | ⟨a, _ | ⟨c, u⟩⟩
    · rw [hrow] at h2; simp at h2
    · rw [hrow] at h2; simp at h2
    · simp

/-- C2 witness: the theorem applied with cfg4 to the state reached after
the start document and both descriptors: the first row_ends page opens a
row; then in the resulting state the second page closes it; and from an
(artificial) state holding two recorded pages a further page fails with
InternalInconsistency 2. -/
theorem claim_C2_row_ends_state_machine_witness :
    (∃ s1, eventPageDoc cfg4 sPre4 xdiPageRow1 = .ok (s1, none) ∧
      s1.row_end_docs = [xdiPageRow1] ∧
      s1.event_page_header_line_buffer ≠ none) ∧
    (∃ s2, eventPageDoc cfg4
        { sPre4 with
          row_end_docs := [xdiPageRow1],
          event_page_header_line_buffer := some [] } xdiPageRow2 =
        .ok (s2, none) ∧ s2.row_end_docs = []) ∧
    eventPageDoc cfg4
        { sPre4 with row_end_docs := [xdiPageRow1, xdiPageRow1] }
        xdiPageRow2 =
      .error (SerErr.internalInconsistency 2) :=
  ⟨(claim_C2_row_ends_state_machine cfg4 sPre4 xdiPageRow1 xdiDescRowEnds
      (by rfl) (by rfl)).1 (by rfl),
   (claim_C2_row_ends_state_machine cfg4
      { sPre4 with
        row_end_docs := [xdiPageRow1],
        event_page_header_line_buffer := some [] } xdiPageRow2
      xdiDescRowEnds (by rfl) (by rfl)).2.1 xdiPageRow1 [] (by rfl) (by rfl),
   (claim_C2_row_ends_state_machine cfg4
      { sPre4 with row_end_docs := [xdiPageRow1, xdiPageRow1] } xdiPageRow2
      xdiDescRowEnds (by rfl) (by rfl)).2.2 (by simp)⟩

/-- C3: first writer wins for the Serializer header-line buffer: once a
header field holds a rendered header-line string, processing any further
document (run-start, event-descriptor, or any event-page that does not
raise) leaves that entry unchanged. -/
theorem claim_C3_first_writer_wins (cfg : SerializerCfg) (s : SState)
    (k line : String)
    (hres : dictGet s.header_line_buffer k = some (some line)) :
    (∀ doc, dictGet (startDoc cfg s doc).header_line_buffer k =
      some (some line)) ∧
    (∀ doc, dictGet (descriptorDoc cfg s doc).header_line_buffer k =
      some (some line)) ∧
    (∀ doc s1 f, eventPageDoc cfg s doc = .ok (s1, f) →
      dictGet s1.header_line_buffer k = some (some line)) := by
  refine ⟨?_, ?_, ?_⟩
  · intro doc
    exact updateHeaderLines_preserves cfg "start" doc _ k line hres
  · intro doc
    exact updateHeaderLines_preserves cfg "descriptor" doc _ k line hres
  · intro doc s1 f h
    rw [eventPageDoc_hlb h]
    exact hres

/-- C3 witness: with a format function that depends on the document, the
"energy" column header line rendered from the first run-start (uid
run-1) survives a second run-start with different field values (uid
run-2) unchanged. -/
theorem claim_C3_first_writer_wins_witness :
    dictGet (startDoc cfg3w (startDoc cfg3w initSState xdiDocStart)
        xdiDocStart2).header_line_buffer "energy" =
      some (some "# energy = energy:run-1") :=
  (claim_C3_first_writer_wins cfg3w (startDoc cfg3w initSState xdiDocStart)
    "energy" "# energy = energy:run-1" (by rfl)).1 xdiDocStart2

/-- C4: running the full one-row stream with the three-column template:
exactly one file is written, on the primary event-page; its data block
has exactly 5 tab-joined rows; the columns appear in the template's
declared order (E, I0, If); and the short If column's final two entries
are the literal "NA". -/
theorem claim_C4_na_padding :
    (processDocs cfg4 initSState xdiDocs4).map
        (fun r => r.2.map (fun f => f.dataRows)) =
      .ok [["1\t10\t100", "2\t20\t200", "3\t30\t300",
            "4\t40\tNA", "5\t50\tNA"]] ∧
    (processDocs cfg4 initSState xdiDocs4).map
        (fun r => r.2.map (fun f => f.columnLabelLine)) =
      .ok ["# energy\ti0\tifl"] ∧
    (processDocs cfg4 initSState xdiDocs4).map
        (fun r => r.2.map (fun f => f.dataRows.length)) =
      .ok [5] := ⟨rfl, rfl, rfl⟩

/-- C8: the end-time slip.  With "Scan.end_time" declared in the
template's optional_headers, after the second row_ends page the captured
end time is stored under the key "Scan_time.end" (exactly as written in
`_event_page_end_row`), not under "Scan.end_time"; and processing the
following primary event-page fails with a KeyError when the combine loop
looks "Scan_time.end" up in the main header buffer, so no end-time header
is ever written to a file. -/
theorem claim_C8_end_time_key_slip :
    (processDocs cfg8 initSState xdiDocs8first5).map
        (fun r =>
          r.1.event_page_header_line_buffer.map
            (fun b =>
              (dictGet b "Scan_time.end", dictGet b "Scan.end_time",
               dictGet b "Scan.start_time"))) =
      .ok (some (some (some "t200"), none, some (some "t100"))) ∧
    processDocs cfg8 initSState xdiDocs8 = .error SerErr.keyError :=
  ⟨rfl, rfl⟩

/-- C1 counterexample: at E = 988.52, which lies strictly between 0 and
e_back = 1977.04, the argument e_back / E = 2 is outside the domain of
arcsin, so `_energy_to_linear` is undefined (numpy NaN) and the round
trip cannot return E: the claimed inverse property fails on the claimed
domain 0 < E < e_back. -/
theorem claim_C1_counterexample :
    0 < (988.52 : ℝ) ∧ (988.52 : ℝ) < 1977.04 ∧
    E_fly_roundtrip 1977.04 0.40118 988.52 ≠ some 988.52 := by
  refine ⟨by norm_num, by norm_num, ?_⟩
  have hgt : ¬ (|(1977.04 : ℝ) / 988.52| ≤ 1) := by
    have h2 : (1977.04 : ℝ) / 988.52 = 2 := by norm_num
    rw [h2]
    norm_num
  unfold E_fly_roundtrip _energy_to_linear
  rw [if_neg hgt]
  simp

/-- C1 (amended): with e_back = 1977.04 and energy_cal = 0.40118, the
E_fly conversions are exact inverses for every energy E strictly greater
than e_back (up to 400000, far beyond the instrument range): converting E
to a linear drive position and back yields exactly E.  For E strictly
between 0 and e_back the conversion is undefined (arcsin domain). -/
theorem claim_C1_roundtrip (E : ℝ) (h1 : 1977.04 < E) (h2 : E ≤ 400000) :
    E_fly_roundtrip 1977.04 0.40118 E = some E := by
  have hE0 : (0 : ℝ) < E := lt_trans (by norm_num) h1
  set s := (1977.04 : ℝ) / E with hs
  have hs0 : 0 < s := div_pos (by norm_num) hE0
  have hs1 : s < 1 := (div_lt_one hE0).mpr h1
  have habs : |s| ≤ 1 := by
    rw [abs_of_pos hs0]
    exact le_of_lt hs1
  set c := deg2rad 0.40118 with hc
  have hc0 : 0 < c := by
    rw [hc]
    unfold deg2rad
    positivity
  have hcub : c / 2 < 0.0036 := by
    rw [hc]
    unfold deg2rad
    linarith [Real.pi_lt_d2]
  set α := Real.arcsin s with hα
  have hα0 : 0 < α := Real.arcsin_pos.mpr hs0
  have hαlt : α < Real.pi / 2 := Real.arcsin_lt_pi_div_two.mpr hs1
  have hs_lb : (0.0049 : ℝ) < s := by
    rw [hs]
    have h400 : (1977.04 : ℝ) / 400000 ≤ 1977.04 / E :=
      div_le_div_of_nonneg_left (by norm_num) hE0 h2
    have h400v : (1977.04 : ℝ) / 400000 = 0.0049426 := by norm_num
    linarith
  have hchalf : c / 2 < α := by
    have hsin_le : Real.sin (c / 2) ≤ c / 2 :=
      le_of_lt (Real.sin_lt (by positivity))
    have hsin_lt_s : Real.sin (c / 2) < s := by linarith
    have harcsin_sin : Real.arcsin (Real.sin (c / 2)) = c / 2 :=
      Real.arcsin_sin (by linarith [Real.pi_gt_three])
        (by linarith [Real.pi_gt_three])
    calc c / 2 = Real.arcsin (Real.sin (c / 2)) := harcsin_sin.symm
      _ < Real.arcsin s :=
          Real.strictMonoOn_arcsin
            ⟨Real.neg_one_le_sin _, Real.sin_le_one _⟩
            ⟨by linarith, le_of_lt hs1⟩
            hsin_lt_s
  set θ := Real.pi / 2 - 2 * α + c with hθ
  have hθlt : θ < Real.pi / 2 := by rw [hθ]; linarith
  have hθgt : -(Real.pi / 2) < θ := by rw [hθ]; linarith
  unfold E_fly_roundtrip _energy_to_linear _linear_to_energy
  rw [if_pos habs, Option.map_some']
  congr 1
  rw [← hs, ← hα, ← hc, ← hθ]
  have harg : (28.2474 - (28.2474 + 35.02333 * Real.tan θ)) / 35.02333 =
      Real.tan (-θ) := by
    rw [Real.tan_neg]
    field_simp
    ring
  rw [harg]
  rw [Real.arctan_tan (by linarith) (by linarith)]
  have h45 : deg2rad 45 = Real.pi / 4 := by
    unfold deg2rad
    ring
  have hsinarg : deg2rad 45 + 0.5 * (-θ) + c / 2 = α := by
    rw [h45, hθ]
    ring
  rw [hsinarg]
  have hsa : Real.sin α = s := Real.sin_arcsin (by linarith) (le_of_lt hs1)
  rw [hsa, hs]
  field_simp

/-- C1 witness: the amended round-trip theorem applied at the concrete
energy 3000 eV (a typical scan energy, above e_back). -/
theorem claim_C1_roundtrip_witness :
    E_fly_roundtrip 1977.04 0.40118 3000 = some 3000 :=
  claim_C1_roundtrip 3000 (by norm_num) (by norm_num)
